import Mathlib

/-!
Shallow embedding of the mpak-sdk client (src/src/client.ts together with the
error classes of errors.ts) and proofs of the specification claims about it.

Strings are modelled as `List Char` (TS strings are character sequences); the
network transport is an abstract function from URL to outcome, and every
client operation additionally returns the list of URLs it requested, in
order, so that "zero network calls" and routing properties are statable.
The SHA-256 primitive (node `crypto`, an external collaborator) is passed in
as an abstract function `hash : Str → Str`; every claim about verification
is parametric in it.
-/

namespace Mpak

/-- Character-sequence model of a TS string. -/
abbrev Str := List Char

/-- Decimal rendering of a number, as JS template interpolation of an
integer produces. -/
def natStr (n : Nat) : Str := (Nat.repr n).data

/-- Models `s.startsWith(p)` from TS. -/
def strStartsWith (s p : Str) : Bool := p.isPrefixOf s

/-- Lowercase hexadecimal digit, the alphabet of a SHA-256 hex digest as
produced by the node crypto hex digest primitive. -/
def isHexDigit (c : Char) : Bool := c.isDigit || (('a' ≤ c) && (c ≤ 'f'))

/-- A string consisting only of lowercase hex digits. -/
def hexStr (s : Str) : Bool := s.all isHexDigit

/-- Models JS truthiness of an optional string (undefined and the empty
string are falsy). -/
def truthyStr : Option Str → Bool
  | none => false
  | some s => !s.isEmpty

/-- Models JS truthiness of an optional number (`undefined` and `0` are
falsy). -/
def truthyNat : Option Nat → Bool
  | none => false
  | some n => n != 0

/-! ### Error model (errors.ts, plus the plain `Error` of validateScopedName) -/

/-- A thrown JS error value. `isMpakError` records whether the value is an
instance of the `MpakError` base class; `code`/`statusCode` are the fields
the `MpakError` constructor sets (absent on a plain `Error`);
`expected`/`actual` are the extra fields of `MpakIntegrityError`. -/
structure SdkError where
  name : Str
  message : Str
  code : Option Str
  statusCode : Option Nat
  expected : Option Str
  actual : Option Str
  isMpakError : Bool
deriving DecidableEq, Repr

/-- Constructor of `MpakNotFoundError` (errors.ts): message
`Resource not found: <resource>`, code `NOT_FOUND`, statusCode 404. -/
def mkNotFoundError (resource : Str) : SdkError :=
  { name := ("MpakNotFoundError").data
    message := ("Resource not found: ").data ++ resource
    code := some (("NOT_FOUND").data)
    statusCode := some 404
    expected := none
    actual := none
    isMpakError := true }

/-- Constructor of `MpakIntegrityError` (errors.ts): message
`Integrity mismatch: expected <e>, got <a>`, code `INTEGRITY_MISMATCH`,
carrying both digests. -/
def mkIntegrityError (expected actual : Str) : SdkError :=
  { name := ("MpakIntegrityError").data
    message := ("Integrity mismatch: expected ").data ++ expected
               ++ (", got ").data ++ actual
    code := some (("INTEGRITY_MISMATCH").data)
    statusCode := none
    expected := some expected
    actual := some actual
    isMpakError := true }

/-- Constructor of `MpakNetworkError` (errors.ts): code `NETWORK_ERROR`. -/
def mkNetworkError (msg : Str) : SdkError :=
  { name := ("MpakNetworkError").data
    message := msg
    code := some (("NETWORK_ERROR").data)
    statusCode := none
    expected := none
    actual := none
    isMpakError := true }

/-- A plain JS `Error` (as thrown by `validateScopedName`): no code, no
statusCode, not an instance of `MpakError`. -/
def mkPlainError (msg : Str) : SdkError :=
  { name := ("Error").data
    message := msg
    code := none
    statusCode := none
    expected := none
    actual := none
    isMpakError := false }

/-! ### Transport model -/

/-- A response body: either text, or a ZIP archive modelled as the list of
its (path, contents) entries, as the archive collaborator exposes them. -/
inductive Payload where
  | text (body : Str)
  | zipArchive (entries : List (Str × Str))
deriving DecidableEq

/-- An HTTP response: status plus payload. -/
structure HttpResponse where
  status : Nat
  payload : Payload
deriving DecidableEq

/-- Models WHATWG fetch `Response.ok`: status in the 200..299 range. -/
def HttpResponse.okFlag (r : HttpResponse) : Bool :=
  decide (200 ≤ r.status) && decide (r.status ≤ 299)

/-- Models `response.text()`. Byte-decoding of a binary archive into a JS
string is not modelled (no operation under proof reads an archive as
text); it decodes to the empty string here. -/
def HttpResponse.bodyText (r : HttpResponse) : Str :=
  match r.payload with
  | .text b => b
  | .zipArchive _ => []

/-- Outcome of one call to the underlying `fetch`: a response, an abort by
the timeout (an `AbortError`), or another transport failure. -/
inductive FetchOutcome where
  | success (status : Nat) (payload : Payload)
  | timeout
  | failure (msg : Str)

/-- The abstract network: what `fetch` yields for each URL. -/
abbrev Net := Str → FetchOutcome

/-! ### Client configuration (client.ts lines 26-42) -/

def DEFAULT_REGISTRY_URL : Str := ("https://api.mpak.dev").data

def DEFAULT_TIMEOUT : Nat := 30000

structure MpakClientConfig where
  registryUrl : Option Str := none
  timeout : Option Nat := none

/-- The immutable client state after construction. -/
structure MpakClient where
  registryUrl : Str
  timeout : Nat

/-- Models the `MpakClient` constructor (`??` defaulting). -/
def MpakClient.ofConfig (config : MpakClientConfig) : MpakClient :=
  { registryUrl := config.registryUrl.getD DEFAULT_REGISTRY_URL
    timeout := config.timeout.getD DEFAULT_TIMEOUT }

/-- The client built from the empty configuration. -/
def defaultClient : MpakClient := MpakClient.ofConfig {}

/-- Models `fetchWithTimeout` (client.ts lines 520-541): an `AbortError`
becomes a Network error naming the configured duration, any other
transport failure becomes a Network error with the underlying message.
Also returns the list of URLs requested (always exactly the one). -/
def fetchWithTimeout (c : MpakClient) (net : Net) (url : Str) :
    Except SdkError HttpResponse × List Str :=
  match net url with
  | .success st p => (.ok ⟨st, p⟩, [url])
  | .timeout =>
      (.error (mkNetworkError (("Request timeout after ").data
        ++ natStr c.timeout ++ ("ms").data)), [url])
  | .failure msg => (.error (mkNetworkError msg), [url])

/-! ### URLSearchParams model (WHATWG application/x-www-form-urlencoded
serializer, restricted to the ASCII inputs the client produces) -/

/-- Uppercase hex digit for percent-encoding. -/
def hexDigitUpper (n : Nat) : Char := (("0123456789ABCDEF").data).getD n '0'

/-- Form-urlencoding of one character: alphanumerics and `*-._` are kept,
space becomes `+`, anything else is percent-encoded. -/
def formEncodeChar (c : Char) : Str :=
  if c.isAlphanum || c == '*' || c == '-' || c == '.' || c == '_' then [c]
  else if c == ' ' then ['+']
  else ['%', hexDigitUpper (c.toNat / 16 % 16), hexDigitUpper (c.toNat % 16)]

def formEncode (s : Str) : Str := s.flatMap formEncodeChar

/-- Models `URLSearchParams.toString()` over the ordered key/value pairs
that were set: `k=v` pieces joined with `&`. -/
def serializeParams (pairs : List (Str × Str)) : Str :=
  List.intercalate (("&").data)
    (pairs.map fun kv => formEncode kv.1 ++ ("=").data ++ formEncode kv.2)

/-! ### Search parameter records (types) -/

structure BundleSearchParams where
  q : Option Str := none
  bundleType : Option Str := none
  sortBy : Option Str := none
  limit : Option Nat := none
  offset : Option Nat := none

structure SkillSearchParams where
  q : Option Str := none
  tags : Option Str := none
  category : Option Str := none
  surface : Option Str := none
  sortBy : Option Str := none
  limit : Option Nat := none
  offset : Option Nat := none

structure Platform where
  os : Str
  arch : Str

/-- The key/value pairs `searchBundles` sets on its `URLSearchParams`
(client.ts lines 52-57): one `set` per truthy parameter, in source order. -/
def searchBundlesPairs (p : BundleSearchParams) : List (Str × Str) :=
  (if truthyStr p.q then [((("q").data), p.q.getD [])] else [])
  ++ (if truthyStr p.bundleType then [((("type").data), p.bundleType.getD [])] else [])
  ++ (if truthyStr p.sortBy then [((("sort").data), p.sortBy.getD [])] else [])
  ++ (if truthyNat p.limit then [((("limit").data), natStr (p.limit.getD 0))] else [])
  ++ (if truthyNat p.offset then [((("offset").data), natStr (p.offset.getD 0))] else [])

/-- The key/value pairs `searchSkills` sets (client.ts lines 173-180). -/
def searchSkillsPairs (p : SkillSearchParams) : List (Str × Str) :=
  (if truthyStr p.q then [((("q").data), p.q.getD [])] else [])
  ++ (if truthyStr p.tags then [((("tags").data), p.tags.getD [])] else [])
  ++ (if truthyStr p.category then [((("category").data), p.category.getD [])] else [])
  ++ (if truthyStr p.surface then [((("surface").data), p.surface.getD [])] else [])
  ++ (if truthyStr p.sortBy then [((("sort").data), p.sortBy.getD [])] else [])
  ++ (if truthyNat p.limit then [((("limit").data), natStr (p.limit.getD 0))] else [])
  ++ (if truthyNat p.offset then [((("offset").data), natStr (p.offset.getD 0))] else [])

/-- The request URL of `searchBundles` (client.ts lines 59-60). -/
def searchBundlesUrl (c : MpakClient) (p : BundleSearchParams) : Str :=
  let queryString := serializeParams (searchBundlesPairs p)
  c.registryUrl ++ ("/v1/bundles/search").data
    ++ (if queryString.isEmpty then [] else '?' :: queryString)

/-- The request URL of `searchSkills` (client.ts lines 182-183). -/
def searchSkillsUrl (c : MpakClient) (p : SkillSearchParams) : Str :=
  let queryString := serializeParams (searchSkillsPairs p)
  c.registryUrl ++ ("/v1/skills/search").data
    ++ (if queryString.isEmpty then [] else '?' :: queryString)

/-! ### Catalog operations (Request/Response Mapper). The decoded JSON
body is opaque pass-through, so each operation returns the response body. -/

/-- Models `searchBundles` (client.ts lines 51-69). -/
def searchBundles (c : MpakClient) (net : Net) (p : BundleSearchParams) :
    Except SdkError Str × List Str :=
  let url := searchBundlesUrl c p
  let fetched := fetchWithTimeout c net url
  (match fetched.1 with
   | .error e => .error e
   | .ok r =>
      if !r.okFlag then
        .error (mkNetworkError (("Failed to search bundles: HTTP ").data
          ++ natStr r.status))
      else .ok r.bodyText,
   fetched.2)

/-- The message of the plain `Error` thrown by `validateScopedName`. -/
def scopedNameErrorMsg : Str :=
  ("Package name must be scoped (e.g., @scope/package-name)").data

/-- Models `validateScopedName` (client.ts lines 511-515): throws a plain
`Error` (not an `MpakError`) when the name does not start with `@`. -/
def validateScopedName (name : Str) : Except SdkError Unit :=
  if !strStartsWith name (("@").data) then
    .error (mkPlainError scopedNameErrorMsg)
  else .ok ()

/-- Models `getBundle` (client.ts lines 74-89). -/
def getBundle (c : MpakClient) (net : Net) (name : Str) :
    Except SdkError Str × List Str :=
  match validateScopedName name with
  | .error e => (.error e, [])
  | .ok _ =>
    let url := c.registryUrl ++ ("/v1/bundles/").data ++ name
    let fetched := fetchWithTimeout c net url
    (match fetched.1 with
     | .error e => .error e
     | .ok r =>
        if r.status == 404 then .error (mkNotFoundError name)
        else if !r.okFlag then
          .error (mkNetworkError (("Failed to get bundle: HTTP ").data
            ++ natStr r.status))
        else .ok r.bodyText,
     fetched.2)

/-- Models `getBundleVersions` (client.ts lines 94-109). -/
def getBundleVersions (c : MpakClient) (net : Net) (name : Str) :
    Except SdkError Str × List Str :=
  match validateScopedName name with
  | .error e => (.error e, [])
  | .ok _ =>
    let url := c.registryUrl ++ ("/v1/bundles/").data ++ name ++ ("/versions").data
    let fetched := fetchWithTimeout c net url
    (match fetched.1 with
     | .error e => .error e
     | .ok r =>
        if r.status == 404 then .error (mkNotFoundError name)
        else if !r.okFlag then
          .error (mkNetworkError (("Failed to get bundle versions: HTTP ").data
            ++ natStr r.status))
        else .ok r.bodyText,
     fetched.2)

/-- Models `getBundleVersion` (client.ts lines 114-129). -/
def getBundleVersion (c : MpakClient) (net : Net) (name version : Str) :
    Except SdkError Str × List Str :=
  match validateScopedName name with
  | .error e => (.error e, [])
  | .ok _ =>
    let url := c.registryUrl ++ ("/v1/bundles/").data ++ name
      ++ ("/versions/").data ++ version
    let fetched := fetchWithTimeout c net url
    (match fetched.1 with
     | .error e => .error e
     | .ok r =>
        if r.status == 404 then
          .error (mkNotFoundError (name ++ ("@").data ++ version))
        else if !r.okFlag then
          .error (mkNetworkError (("Failed to get bundle version: HTTP ").data
            ++ natStr r.status))
        else .ok r.bodyText,
     fetched.2)

/-- Models `getBundleDownload` (client.ts lines 134-163): the platform,
when supplied, contributes `os` and `arch` query parameters. -/
def getBundleDownload (c : MpakClient) (net : Net) (name version : Str)
    (platform : Option Platform) : Except SdkError Str × List Str :=
  match validateScopedName name with
  | .error e => (.error e, [])
  | .ok _ =>
    let pairs := match platform with
      | some pl => [((("os").data), pl.os), ((("arch").data), pl.arch)]
      | none => []
    let queryString := serializeParams pairs
    let url := c.registryUrl ++ ("/v1/bundles/").data ++ name
      ++ ("/versions/").data ++ version ++ ("/download").data
      ++ (if queryString.isEmpty then [] else '?' :: queryString)
    let fetched := fetchWithTimeout c net url
    (match fetched.1 with
     | .error e => .error e
     | .ok r =>
        if r.status == 404 then
          .error (mkNotFoundError (name ++ ("@").data ++ version))
        else if !r.okFlag then
          .error (mkNetworkError (("Failed to get bundle download: HTTP ").data
            ++ natStr r.status))
        else .ok r.bodyText,
     fetched.2)

/-- Models `searchSkills` (client.ts lines 172-192). -/
def searchSkills (c : MpakClient) (net : Net) (p : SkillSearchParams) :
    Except SdkError Str × List Str :=
  let url := searchSkillsUrl c p
  let fetched := fetchWithTimeout c net url
  (match fetched.1 with
   | .error e => .error e
   | .ok r =>
      if !r.okFlag then
        .error (mkNetworkError (("Failed to search skills: HTTP ").data
          ++ natStr r.status))
      else .ok r.bodyText,
   fetched.2)

/-- Models `getSkill` (client.ts lines 197-212). -/
def getSkill (c : MpakClient) (net : Net) (name : Str) :
    Except SdkError Str × List Str :=
  match validateScopedName name with
  | .error e => (.error e, [])
  | .ok _ =>
    let url := c.registryUrl ++ ("/v1/skills/").data ++ name
    let fetched := fetchWithTimeout c net url
    (match fetched.1 with
     | .error e => .error e
     | .ok r =>
        if r.status == 404 then .error (mkNotFoundError name)
        else if !r.okFlag then
          .error (mkNetworkError (("Failed to get skill: HTTP ").data
            ++ natStr r.status))
        else .ok r.bodyText,
     fetched.2)

/-- Models `getSkillDownload` (client.ts lines 217-235). -/
def getSkillDownload (c : MpakClient) (net : Net) (name : Str) :
    Except SdkError Str × List Str :=
  match validateScopedName name with
  | .error e => (.error e, [])
  | .ok _ =>
    let url := c.registryUrl ++ ("/v1/skills/").data ++ name ++ ("/download").data
    let fetched := fetchWithTimeout c net url
    (match fetched.1 with
     | .error e => .error e
     | .ok r =>
        if r.status == 404 then .error (mkNotFoundError name)
        else if !r.okFlag then
          .error (mkNetworkError (("Failed to get skill download: HTTP ").data
            ++ natStr r.status))
        else .ok r.bodyText,
     fetched.2)

/-- Models `getSkillVersionDownload` (client.ts lines 240-258). -/
def getSkillVersionDownload (c : MpakClient) (net : Net) (name version : Str) :
    Except SdkError Str × List Str :=
  match validateScopedName name with
  | .error e => (.error e, [])
  | .ok _ =>
    let url := c.registryUrl ++ ("/v1/skills/").data ++ name
      ++ ("/versions/").data ++ version ++ ("/download").data
    let fetched := fetchWithTimeout c net url
    (match fetched.1 with
     | .error e => .error e
     | .ok r =>
        if r.status == 404 then
          .error (mkNotFoundError (name ++ ("@").data ++ version))
        else if !r.okFlag then
          .error (mkNetworkError (("Failed to get skill download: HTTP ").data
            ++ natStr r.status))
        else .ok r.bodyText,
     fetched.2)

/-! ### Integrity Verifier and Source Resolver -/

/-- Models `downloadSkillContent` (client.ts lines 265-286): fetches the
URL and, when a truthy `expectedSha256` is supplied, compares the computed
digest against it LITERALLY (no prefix stripping, no case folding). -/
def downloadSkillContent (c : MpakClient) (net : Net) (hash : Str → Str)
    (downloadUrl : Str) (expectedSha256 : Option Str) :
    Except SdkError (Str × Bool) × List Str :=
  let fetched := fetchWithTimeout c net downloadUrl
  (match fetched.1 with
   | .error e => .error e
   | .ok r =>
      if !r.okFlag then
        .error (mkNetworkError (("Failed to download skill: HTTP ").data
          ++ natStr r.status))
      else
        let content := r.bodyText
        if truthyStr expectedSha256 then
          let expected := expectedSha256.getD []
          let actualHash := hash content
          if actualHash != expected then
            .error (mkIntegrityError expected actualHash)
          else .ok (content, true)
        else .ok (content, false),
   fetched.2)

/-- Source tag of a skill reference / resolved skill. -/
inductive Source where
  | mpak
  | github
  | url
deriving DecidableEq, Repr

/-- The discriminated union `SkillReference` (types.ts): common fields
`name`, `version`, optional `integrity`; the github variant adds `repo`
and `path`, the url variant adds `url`. -/
inductive SkillReference where
  | mpak (name version : Str) (integrity : Option Str)
  | github (name version : Str) (integrity : Option Str) (repo path : Str)
  | url (name version : Str) (integrity : Option Str) (theUrl : Str)
deriving DecidableEq

def SkillReference.integrity : SkillReference → Option Str
  | .mpak _ _ i => i
  | .github _ _ i _ _ => i
  | .url _ _ i _ => i

def SkillReference.sourceTag : SkillReference → Source
  | .mpak _ _ _ => .mpak
  | .github _ _ _ _ _ => .github
  | .url _ _ _ _ => .url

/-- Replaces the integrity descriptor of a reference, keeping everything
else. -/
def SkillReference.withIntegrity : SkillReference → Option Str → SkillReference
  | .mpak n v _, i => .mpak n v i
  | .github n v _ r p, i => .github n v i r p
  | .url n v _ u, i => .url n v i u

/-- The record `ResolvedSkill` (types.ts). -/
structure ResolvedSkill where
  content : Str
  version : Str
  source : Source
  verified : Bool
deriving DecidableEq, Repr

/-- Models `extractHash` (client.ts lines 450-458): strips a recognized
`sha256:` or `sha256-` prefix; anything else is returned whole. -/
def extractHash (integrity : Str) : Str :=
  if strStartsWith integrity (("sha256:").data) then integrity.drop 7
  else if strStartsWith integrity (("sha256-").data) then integrity.drop 7
  else integrity

/-- Models `verifyIntegrityOrThrow` (client.ts lines 438-445): compares
the computed digest against the PARSED descriptor and throws
`MpakIntegrityError expectedHash actualHash` on mismatch. -/
def verifyIntegrityOrThrow (hash : Str → Str) (content integrity : Str) :
    Except SdkError Unit :=
  let expectedHash := extractHash integrity
  let actualHash := hash content
  if actualHash != expectedHash then
    .error (mkIntegrityError expectedHash actualHash)
  else .ok ()

/-- The message of the error JSZip raises on a non-archive payload
(paraphrased; nothing under proof depends on its exact text). -/
def zipParseErrorMsg : Str :=
  ("Cannot find end of central directory: is this a zip file?").data

/-- Models `JSZip.loadAsync` at the granularity the client observes: a ZIP
payload yields its entry table; a non-archive payload makes the library
throw a plain (non-Mpak) error. -/
def jszipLoad : Payload → Except SdkError (List (Str × Str))
  | .text _ => .error (mkPlainError zipParseErrorMsg)
  | .zipArchive entries => .ok entries

/-- Splits a string on `/` exactly as JS `s.split('/')` does. -/
def splitSlash (s : Str) : List Str := s.splitOn '/'

/-- Models `extractSkillFromZip` (client.ts lines 414-433): looks up
`<basename(name)>/SKILL.md` first, then a bare `SKILL.md`, and otherwise
fails with a Not-Found error naming the missing entry. -/
def extractSkillFromZip (payload : Payload) (skillName : Str) :
    Except SdkError Str :=
  match jszipLoad payload with
  | .error e => .error e
  | .ok entries =>
    let folderName := (splitSlash skillName).getLastD skillName
    let skillPath := folderName ++ ("/SKILL.md").data
    match entries.lookup skillPath with
    | some skillFile => .ok skillFile
    | none =>
      match entries.lookup (("SKILL.md").data) with
      | some altFile => .ok altFile
      | none =>
        .error (mkNotFoundError
          (("SKILL.md not found in bundle for ").data ++ skillName))

/-- The download URL `resolveMpakSkill` fetches (client.ts line 346). -/
def mpakSkillDownloadUrl (c : MpakClient) (name version : Str) : Str :=
  c.registryUrl ++ ("/v1/skills/").data ++ name
    ++ ("/versions/").data ++ version ++ ("/download").data

/-- Models `resolveMpakSkill` (client.ts lines 345-368): fetches the
registry download endpoint (no scoped-name validation happens here),
always extracts `SKILL.md` from the payload as a ZIP, then applies the
optional integrity check. -/
def resolveMpakSkill (c : MpakClient) (net : Net) (hash : Str → Str)
    (name version : Str) (integrity : Option Str) :
    Except SdkError ResolvedSkill × List Str :=
  let url := mpakSkillDownloadUrl c name version
  let fetched := fetchWithTimeout c net url
  (match fetched.1 with
   | .error e => .error e
   | .ok r =>
      if r.status == 404 then
        .error (mkNotFoundError (name ++ ("@").data ++ version))
      else if !r.okFlag then
        .error (mkNetworkError (("Failed to fetch skill: HTTP ").data
          ++ natStr r.status))
      else
        match extractSkillFromZip r.payload name with
        | .error e => .error e
        | .ok content =>
            if truthyStr integrity then
              match verifyIntegrityOrThrow hash content (integrity.getD []) with
              | .error e => .error e
              | .ok _ => .ok ⟨content, version, .mpak, true⟩
            else .ok ⟨content, version, .mpak, false⟩,
   fetched.2)

/-- The release-asset URL `resolveGithubSkill` fetches (client.ts
line 374). -/
def githubSkillUrl (repo version path : Str) : Str :=
  ("https://github.com/").data ++ repo ++ ("/releases/download/").data
    ++ version ++ ("/").data ++ path

/-- Models `resolveGithubSkill` (client.ts lines 373-389). -/
def resolveGithubSkill (c : MpakClient) (net : Net) (hash : Str → Str)
    (version : Str) (integrity : Option Str) (repo path : Str) :
    Except SdkError ResolvedSkill × List Str :=
  let url := githubSkillUrl repo version path
  let fetched := fetchWithTimeout c net url
  (match fetched.1 with
   | .error e => .error e
   | .ok r =>
      if !r.okFlag then
        .error (mkNotFoundError (("github:").data ++ repo ++ ("/").data
          ++ path ++ ("@").data ++ version))
      else
        let content := r.bodyText
        if truthyStr integrity then
          match verifyIntegrityOrThrow hash content (integrity.getD []) with
          | .error e => .error e
          | .ok _ => .ok ⟨content, version, .github, true⟩
        else .ok ⟨content, version, .github, false⟩,
   fetched.2)

/-- Models `resolveUrlSkill` (client.ts lines 394-409). -/
def resolveUrlSkill (c : MpakClient) (net : Net) (hash : Str → Str)
    (version : Str) (integrity : Option Str) (theUrl : Str) :
    Except SdkError ResolvedSkill × List Str :=
  let fetched := fetchWithTimeout c net theUrl
  (match fetched.1 with
   | .error e => .error e
   | .ok r =>
      if !r.okFlag then
        .error (mkNotFoundError (("url:").data ++ theUrl))
      else
        let content := r.bodyText
        if truthyStr integrity then
          match verifyIntegrityOrThrow hash content (integrity.getD []) with
          | .error e => .error e
          | .ok _ => .ok ⟨content, version, .url, true⟩
        else .ok ⟨content, version, .url, false⟩,
   fetched.2)

/-- Models `resolveSkillRef` (client.ts lines 325-338): dispatch on the
source tag of the reference. -/
def resolveSkillRef (c : MpakClient) (net : Net) (hash : Str → Str)
    (ref : SkillReference) : Except SdkError ResolvedSkill × List Str :=
  match ref with
  | .mpak name version integrity => resolveMpakSkill c net hash name version integrity
  | .github _ version integrity repo path =>
      resolveGithubSkill c net hash version integrity repo path
  | .url _ version integrity theUrl =>
      resolveUrlSkill c net hash version integrity theUrl

/-! ### Concrete sample data for witnesses and counterexamples -/

/-- Decidable equality for `Except`, needed to evaluate concrete runs. -/
instance {ε α : Type} [DecidableEq ε] [DecidableEq α] :
    DecidableEq (Except ε α) := fun a b =>
  match a, b with
  | .ok x, .ok y => decidable_of_iff (x = y) (by simp)
  | .error x, .error y => decidable_of_iff (x = y) (by simp)
  | .ok _, .error _ => isFalse (by simp)
  | .error _, .ok _ => isFalse (by simp)

/-- The SHA-256 hex digest of the string `x` (computed externally; the
hash primitive itself is outside the repository). -/
def sampleDigest : Str :=
  ("2d711642b726b04401627ca9fbac32f5c8530fb1903cc4db02258717921a4881").data

/-- A second, different 64-character lowercase hex digest. -/
def otherDigest : Str :=
  ("9f86d081884c7d659a2feaa0c55ad015a3bf4f1b2b0b822cd15d6c15b0f00a08").data

/-- A stand-in for the external SHA-256 primitive used to instantiate the
abstract hash parameter on concrete runs. -/
def constHash : Str → Str := fun _ => sampleDigest

/-- A network whose every URL responds 200 with a fixed text body. -/
def netTextAll (body : Str) : Net := fun _ => .success 200 (.text body)

/-- A network whose every URL responds 200 with a fixed ZIP payload. -/
def netZipAll (entries : List (Str × Str)) : Net :=
  fun _ => .success 200 (.zipArchive entries)

/-- A network whose every URL responds 404. -/
def net404All : Net := fun _ => .success 404 (.text [])

/-- A network whose every URL responds 500. -/
def net500All : Net := fun _ => .success 500 (.text [])

/-- A network on which every request hits the configured timeout. -/
def netTimeoutAll : Net := fun _ => .timeout

/-! ### Helper lemmas -/

lemma append_ne_right (p d : Str) (hp : p ≠ []) : p ++ d ≠ d := by
  intro h
  have hl := congrArg List.length h
  rw [List.length_append] at hl
  exact hp (List.length_eq_zero.mp (by omega))

lemma startsWith_append (p s : Str) : strStartsWith (p ++ s) p = true := by
  rw [strStartsWith, List.isPrefixOf_iff_prefix]
  exact List.prefix_append p s

lemma extractHash_colon (h : Str) :
    extractHash ((("sha256:").data) ++ h) = h := by
  unfold extractHash
  rw [if_pos (startsWith_append _ _)]
  have hl : (("sha256:").data).length = 7 := rfl
  rw [show (7 : Nat) = (("sha256:").data).length from rfl, List.drop_left]

lemma extractHash_drop_of_dash (x : Str)
    (h2 : strStartsWith x (("sha256-").data) = true) :
    extractHash x = x.drop 7 := by
  unfold extractHash
  rcases Bool.eq_false_or_eq_true (strStartsWith x (("sha256:").data)) with h1 | h1
  · rw [if_pos h1]
  · rw [if_neg (by simp [h1]), if_pos h2]

lemma extractHash_dash (h : Str) :
    extractHash ((("sha256-").data) ++ h) = h := by
  rw [extractHash_drop_of_dash _ (startsWith_append _ _)]
  rw [show (7 : Nat) = (("sha256-").data).length from rfl, List.drop_left]

lemma hex_startsWith_false (hx : Str) (c : Char) (rest : Str)
    (hc : isHexDigit c = false) (hh : hexStr hx = true) :
    strStartsWith hx (c :: rest) = false := by
  rw [← Bool.not_eq_true, strStartsWith, List.isPrefixOf_iff_prefix]
  intro hpre
  obtain ⟨t, ht⟩ := hpre
  rw [← ht, hexStr, List.all_append, List.all_cons] at hh
  simp only [Bool.and_eq_true] at hh
  rw [hh.1.1] at hc
  exact Bool.noConfusion hc

lemma extractHash_hex (h : Str) (hh : hexStr h = true) : extractHash h = h := by
  unfold extractHash
  rw [if_neg, if_neg]
  · rw [show ("sha256-").data = 's' :: (("ha256-").data) from rfl]
    simp [hex_startsWith_false h 's' (("ha256-").data) (by decide) hh]
  · rw [show ("sha256:").data = 's' :: (("ha256:").data) from rfl]
    simp [hex_startsWith_false h 's' (("ha256:").data) (by decide) hh]

lemma truthy_of_ne_nil (s : Str) (h : s ≠ []) : truthyStr (some s) = true := by
  cases s with
  | nil => exact absurd rfl h
  | cons a t => rfl

lemma truthy_append_left (p s : Str) (h : p ≠ []) :
    truthyStr (some (p ++ s)) = true := by
  apply truthy_of_ne_nil
  cases p with
  | nil => exact absurd rfl h
  | cons a t => simp

lemma okFlag_true {st : Nat} (p : Payload) (h1 : 200 ≤ st) (h2 : st ≤ 299) :
    (HttpResponse.mk st p).okFlag = true := by
  simp only [HttpResponse.okFlag, Bool.and_eq_true, decide_eq_true_eq]
  exact ⟨h1, h2⟩

lemma okFlag_false {st : Nat} (p : Payload) (h : ¬(200 ≤ st ∧ st ≤ 299)) :
    (HttpResponse.mk st p).okFlag = false := by
  simp only [HttpResponse.okFlag]
  rcases Nat.lt_or_ge st 200 with hlt | hge
  · have : decide (200 ≤ st) = false := by simp; omega
    rw [this, Bool.false_and]
  · have : decide (st ≤ 299) = false := by simp; omega
    rw [this, Bool.and_false]

lemma beq_404_false {st : Nat} (h : st ≠ 404) : (st == 404) = false := by
  simp only [beq_eq_false_iff_ne, ne_eq]
  exact h

lemma fetch_reqs (c : MpakClient) (net : Net) (u : Str) :
    (fetchWithTimeout c net u).2 = [u] := by
  unfold fetchWithTimeout
  cases net u <;> rfl

lemma verify_ok_digest {hash : Str → Str} {content integrity : Str}
    (h : verifyIntegrityOrThrow hash content integrity = .ok ()) :
    hash content = extractHash integrity := by
  simp only [verifyIntegrityOrThrow] at h
  split at h
  · exact absurd h (by simp)
  · next hcond => simpa [bne_iff_ne] using hcond

lemma verify_mismatch {hash : Str → Str} {content integrity : Str}
    (h : hash content ≠ extractHash integrity) :
    verifyIntegrityOrThrow hash content integrity
      = .error (mkIntegrityError (extractHash integrity) (hash content)) := by
  simp only [verifyIntegrityOrThrow]
  rw [if_pos (bne_iff_ne.mpr h)]

lemma verify_match {hash : Str → Str} {content integrity : Str}
    (h : hash content = extractHash integrity) :
    verifyIntegrityOrThrow hash content integrity = .ok () := by
  simp only [verifyIntegrityOrThrow]
  rw [if_neg]
  simp [bne_iff_ne, h]

lemma validate_ok {name : Str} (h : strStartsWith name (("@").data) = true) :
    validateScopedName name = .ok () := by
  unfold validateScopedName
  rw [if_neg]
  simp [h]

lemma validate_err {name : Str} (h : strStartsWith name (("@").data) = false) :
    validateScopedName name = .error (mkPlainError scopedNameErrorMsg) := by
  unfold validateScopedName
  rw [if_pos]
  simp [h]

lemma resolveUrlSkill_reqs (c : MpakClient) (net : Net) (hash : Str → Str)
    (vr : Str) (i : Option Str) (u : Str) :
    (resolveUrlSkill c net hash vr i u).2 = [u] :=
  fetch_reqs c net u

lemma resolveGithubSkill_reqs (c : MpakClient) (net : Net) (hash : Str → Str)
    (vr : Str) (i : Option Str) (repo path : Str) :
    (resolveGithubSkill c net hash vr i repo path).2
      = [githubSkillUrl repo vr path] :=
  fetch_reqs c net (githubSkillUrl repo vr path)

lemma resolveMpakSkill_reqs (c : MpakClient) (net : Net) (hash : Str → Str)
    (nm vr : Str) (i : Option Str) :
    (resolveMpakSkill c net hash nm vr i).2 = [mpakSkillDownloadUrl c nm vr] :=
  fetch_reqs c net (mpakSkillDownloadUrl c nm vr)

lemma resolveUrlSkill_ok_inv {c : MpakClient} {net : Net} {hash : Str → Str}
    {vr : Str} {i : Option Str} {u : Str} {res : ResolvedSkill}
    (h : (resolveUrlSkill c net hash vr i u).1 = .ok res) :
    res.source = .url ∧ res.version = vr ∧ res.verified = truthyStr i ∧
    (truthyStr i = true → hash res.content = extractHash (i.getD [])) := by
  simp only [resolveUrlSkill] at h
  cases hnu : net u with
  | timeout => simp [fetchWithTimeout, hnu] at h
  | failure m => simp [fetchWithTimeout, hnu] at h
  | success st p =>
    simp only [fetchWithTimeout, hnu] at h
    rcases Bool.eq_false_or_eq_true ((HttpResponse.mk st p).okFlag) with hok | hok
    · simp only [hok, Bool.not_true, Bool.false_eq_true, if_false] at h
      cases hti : truthyStr i with
      | false =>
        simp only [hti, Bool.false_eq_true, if_false] at h
        rw [Except.ok.injEq] at h
        subst h
        exact ⟨rfl, rfl, rfl, fun ht => absurd ht (by simp)⟩
      | true =>
        simp only [hti, if_true] at h
        cases hv : verifyIntegrityOrThrow hash ((HttpResponse.mk st p).bodyText)
            (i.getD []) with
        | error e => simp [hv] at h
        | ok u0 =>
          cases u0
          simp only [hv, Except.ok.injEq] at h
          subst h
          exact ⟨rfl, rfl, rfl, fun _ => verify_ok_digest hv⟩
    · simp [hok] at h

lemma resolveGithubSkill_ok_inv {c : MpakClient} {net : Net} {hash : Str → Str}
    {vr : Str} {i : Option Str} {repo path : Str} {res : ResolvedSkill}
    (h : (resolveGithubSkill c net hash vr i repo path).1 = .ok res) :
    res.source = .github ∧ res.version = vr ∧ res.verified = truthyStr i ∧
    (truthyStr i = true → hash res.content = extractHash (i.getD [])) := by
  simp only [resolveGithubSkill] at h
  cases hnu : net (githubSkillUrl repo vr path) with
  | timeout => simp [fetchWithTimeout, hnu] at h
  | failure m => simp [fetchWithTimeout, hnu] at h
  | success st p =>
    simp only [fetchWithTimeout, hnu] at h
    rcases Bool.eq_false_or_eq_true ((HttpResponse.mk st p).okFlag) with hok | hok
    · simp only [hok, Bool.not_true, Bool.false_eq_true, if_false] at h
      cases hti : truthyStr i with
      | false =>
        simp only [hti, Bool.false_eq_true, if_false] at h
        rw [Except.ok.injEq] at h
        subst h
        exact ⟨rfl, rfl, rfl, fun ht => absurd ht (by simp)⟩
      | true =>
        simp only [hti, if_true] at h
        cases hv : verifyIntegrityOrThrow hash ((HttpResponse.mk st p).bodyText)
            (i.getD []) with
        | error e => simp [hv] at h
        | ok u0 =>
          cases u0
          simp only [hv, Except.ok.injEq] at h
          subst h
          exact ⟨rfl, rfl, rfl, fun _ => verify_ok_digest hv⟩
    · simp [hok] at h

lemma resolveMpakSkill_ok_inv {c : MpakClient} {net : Net} {hash : Str → Str}
    {nm vr : Str} {i : Option Str} {res : ResolvedSkill}
    (h : (resolveMpakSkill c net hash nm vr i).1 = .ok res) :
    res.source = .mpak ∧ res.version = vr ∧ res.verified = truthyStr i ∧
    (truthyStr i = true → hash res.content = extractHash (i.getD [])) := by
  simp only [resolveMpakSkill] at h
  cases hnu : net (mpakSkillDownloadUrl c nm vr) with
  | timeout => simp [fetchWithTimeout, hnu] at h
  | failure m => simp [fetchWithTimeout, hnu] at h
  | success st p =>
    simp only [fetchWithTimeout, hnu] at h
    rcases Bool.eq_false_or_eq_true ((HttpResponse.mk st p).status == 404)
        with h404 | h404
    · simp [h404] at h
    · simp only [h404, Bool.false_eq_true, if_false] at h
      rcases Bool.eq_false_or_eq_true ((HttpResponse.mk st p).okFlag) with hok | hok
      · simp only [hok, Bool.not_true, Bool.false_eq_true, if_false] at h
        cases hz : extractSkillFromZip (HttpResponse.mk st p).payload nm with
        | error e => simp [hz] at h
        | ok content =>
          simp only [hz] at h
          cases hti : truthyStr i with
          | false =>
            simp only [hti, Bool.false_eq_true, if_false] at h
            rw [Except.ok.injEq] at h
            subst h
            exact ⟨rfl, rfl, rfl, fun ht => absurd ht (by simp)⟩
          | true =>
            simp only [hti, if_true] at h
            cases hv : verifyIntegrityOrThrow hash content (i.getD []) with
            | error e => simp [hv] at h
            | ok u0 =>
              cases u0
              simp only [hv, Except.ok.injEq] at h
              subst h
              exact ⟨rfl, rfl, rfl, fun _ => verify_ok_digest hv⟩
      · simp [hok] at h

/-- Inversion for `resolveSkillRef`: any successful resolution carries the
source tag of the reference, its version, the verified flag equal to the
truthiness of the supplied descriptor, and a content whose digest matches
the parsed descriptor whenever one was supplied. -/
lemma resolveSkillRef_ok_inv {c : MpakClient} {net : Net} {hash : Str → Str}
    {ref : SkillReference} {res : ResolvedSkill}
    (h : (resolveSkillRef c net hash ref).1 = .ok res) :
    res.source = ref.sourceTag ∧ res.verified = truthyStr ref.integrity ∧
    (truthyStr ref.integrity = true →
      hash res.content = extractHash (ref.integrity.getD [])) := by
  cases ref with
  | mpak nm vr i =>
    have := resolveMpakSkill_ok_inv (h := h)
    exact ⟨this.1, this.2.2.1, this.2.2.2⟩
  | github nm vr i repo path =>
    have := resolveGithubSkill_ok_inv (h := h)
    exact ⟨this.1, this.2.2.1, this.2.2.2⟩
  | url nm vr i u =>
    have := resolveUrlSkill_ok_inv (h := h)
    exact ⟨this.1, this.2.2.1, this.2.2.2⟩

lemma resolveUrlSkill_integrity_congr (c : MpakClient) (net : Net)
    (hash : Str → Str) (vr u : Str) (d1 d2 : Str) (h1 : d1 ≠ []) (h2 : d2 ≠ [])
    (he : extractHash d1 = extractHash d2) :
    resolveUrlSkill c net hash vr (some d1) u
      = resolveUrlSkill c net hash vr (some d2) u := by
  have ht1 := truthy_of_ne_nil d1 h1
  have ht2 := truthy_of_ne_nil d2 h2
  simp only [resolveUrlSkill, verifyIntegrityOrThrow, ht1, ht2, Option.getD_some,
    he, if_true]

lemma resolveGithubSkill_integrity_congr (c : MpakClient) (net : Net)
    (hash : Str → Str) (vr repo path : Str) (d1 d2 : Str) (h1 : d1 ≠ [])
    (h2 : d2 ≠ []) (he : extractHash d1 = extractHash d2) :
    resolveGithubSkill c net hash vr (some d1) repo path
      = resolveGithubSkill c net hash vr (some d2) repo path := by
  have ht1 := truthy_of_ne_nil d1 h1
  have ht2 := truthy_of_ne_nil d2 h2
  simp only [resolveGithubSkill, verifyIntegrityOrThrow, ht1, ht2,
    Option.getD_some, he, if_true]

lemma resolveMpakSkill_integrity_congr (c : MpakClient) (net : Net)
    (hash : Str → Str) (nm vr : Str) (d1 d2 : Str) (h1 : d1 ≠ []) (h2 : d2 ≠ [])
    (he : extractHash d1 = extractHash d2) :
    resolveMpakSkill c net hash nm vr (some d1)
      = resolveMpakSkill c net hash nm vr (some d2) := by
  have ht1 := truthy_of_ne_nil d1 h1
  have ht2 := truthy_of_ne_nil d2 h2
  simp only [resolveMpakSkill, verifyIntegrityOrThrow, ht1, ht2,
    Option.getD_some, he, if_true]

/-! ### Claim theorems -/

/-- C3: for every hex string h, the descriptors `sha256:h`, `sha256-h` and
bare `h` all parse to the digest h; a descriptor with no recognized prefix
is treated as already-bare hex and the parse never fails; and descriptors
with equal parses yield identical verification outcomes in
`resolveSkillRef` (for every source variant) on the same content. -/
theorem c3_descriptor_encoding_equivalence (h : Str) (hh : hexStr h = true) :
    extractHash ((("sha256:").data) ++ h) = h
    ∧ extractHash ((("sha256-").data) ++ h) = h
    ∧ extractHash h = h
    ∧ (∀ d : Str, strStartsWith d (("sha256:").data) = false →
        strStartsWith d (("sha256-").data) = false → extractHash d = d)
    ∧ (∀ (hash : Str → Str) (content d1 d2 : Str),
        extractHash d1 = extractHash d2 →
        verifyIntegrityOrThrow hash content d1
          = verifyIntegrityOrThrow hash content d2)
    ∧ (∀ (c : MpakClient) (net : Net) (hash : Str → Str) (ref : SkillReference),
        h ≠ [] →
        resolveSkillRef c net hash
            (ref.withIntegrity (some ((("sha256:").data) ++ h)))
          = resolveSkillRef c net hash
            (ref.withIntegrity (some ((("sha256-").data) ++ h)))
        ∧ resolveSkillRef c net hash
            (ref.withIntegrity (some ((("sha256:").data) ++ h)))
          = resolveSkillRef c net hash (ref.withIntegrity (some h))) := by
  refine ⟨extractHash_colon h, extractHash_dash h, extractHash_hex h hh,
    ?_, ?_, ?_⟩
  · intro d hd1 hd2
    unfold extractHash
    rw [if_neg (by simp [hd1]), if_neg (by simp [hd2])]
  · intro hash content d1 d2 he
    simp only [verifyIntegrityOrThrow, he]
  · intro c net hash ref hne
    have e1 : extractHash ((("sha256:").data) ++ h)
        = extractHash ((("sha256-").data) ++ h) := by
      rw [extractHash_colon, extractHash_dash]
    have e2 : extractHash ((("sha256:").data) ++ h) = extractHash h := by
      rw [extractHash_colon, extractHash_hex h hh]
    have hp1 : (("sha256:").data) ++ h ≠ [] := by simp
    have hp2 : (("sha256-").data) ++ h ≠ [] := by simp
    cases ref with
    | mpak nm vr i =>
      exact ⟨resolveMpakSkill_integrity_congr c net hash nm vr _ _ hp1 hp2 e1,
        resolveMpakSkill_integrity_congr c net hash nm vr _ _ hp1 hne e2⟩
    | github nm vr i repo path =>
      exact ⟨resolveGithubSkill_integrity_congr c net hash vr repo path _ _
          hp1 hp2 e1,
        resolveGithubSkill_integrity_congr c net hash vr repo path _ _
          hp1 hne e2⟩
    | url nm vr i u =>
      exact ⟨resolveUrlSkill_integrity_congr c net hash vr u _ _ hp1 hp2 e1,
        resolveUrlSkill_integrity_congr c net hash vr u _ _ hp1 hne e2⟩

/-- C3 witness: the equivalence evaluated at the concrete hex digest
`ab` and a concrete client, network, hash and reference. -/
theorem c3_witness :
    extractHash ((("sha256:ab").data)) = ("ab").data
    ∧ resolveSkillRef defaultClient (netTextAll (("body").data)) constHash
        (.url (("@a/b").data) (("1.0.0").data) (some (("sha256:ab").data))
          (("https://x.example/s").data))
      = resolveSkillRef defaultClient (netTextAll (("body").data)) constHash
        (.url (("@a/b").data) (("1.0.0").data) (some (("sha256-ab").data))
          (("https://x.example/s").data)) := by
  have h := c3_descriptor_encoding_equivalence (("ab").data) (by decide)
  have h6 := (h.2.2.2.2.2 defaultClient (netTextAll (("body").data)) constHash
    (.url (("@a/b").data) (("1.0.0").data) none (("https://x.example/s").data))
    (by decide)).1
  exact ⟨h.1, h6⟩

/-- C9: `downloadSkillContent` compares the supplied descriptor literally
against the computed digest, with no prefix stripping: a `sha256:`- or
`sha256-`-prefixed descriptor of the correct digest still throws an
Integrity error whose expected field is the unparsed descriptor string,
while `resolveSkillRef` applies the three-encoding parse and succeeds with
the same descriptor. -/
theorem c9_downloadSkillContent_literal (c : MpakClient) (net : Net)
    (hash : Str → Str) (u content : Str)
    (hnet : net u = .success 200 (.text content)) :
    (downloadSkillContent c net hash u
        (some ((("sha256:").data) ++ hash content))).1
      = .error (mkIntegrityError ((("sha256:").data) ++ hash content)
          (hash content))
    ∧ (downloadSkillContent c net hash u
        (some ((("sha256-").data) ++ hash content))).1
      = .error (mkIntegrityError ((("sha256-").data) ++ hash content)
          (hash content))
    ∧ (∀ nm vr : Str,
        (resolveSkillRef c net hash
          (.url nm vr (some ((("sha256:").data) ++ hash content)) u)).1
          = .ok ⟨content, vr, .url, true⟩) := by
  have hok : (HttpResponse.mk 200 (.text content)).okFlag = true :=
    okFlag_true _ (by omega) (by omega)
  refine ⟨?_, ?_, ?_⟩
  · have hne : hash content ≠ (("sha256:").data) ++ hash content :=
      Ne.symm (append_ne_right _ _ (by decide))
    simp only [downloadSkillContent, fetchWithTimeout, hnet, hok, Bool.not_true,
      Bool.false_eq_true, if_false, HttpResponse.bodyText,
      truthy_append_left (("sha256:").data) (hash content) (by decide), if_true,
      Option.getD_some]
    rw [if_pos (bne_iff_ne.mpr hne)]
  · have hne : hash content ≠ (("sha256-").data) ++ hash content :=
      Ne.symm (append_ne_right _ _ (by decide))
    simp only [downloadSkillContent, fetchWithTimeout, hnet, hok, Bool.not_true,
      Bool.false_eq_true, if_false, HttpResponse.bodyText,
      truthy_append_left (("sha256-").data) (hash content) (by decide), if_true,
      Option.getD_some]
    rw [if_pos (bne_iff_ne.mpr hne)]
  · intro nm vr
    have hv : verifyIntegrityOrThrow hash content
        ((("sha256:").data) ++ hash content) = .ok () :=
      verify_match (by rw [extractHash_colon])
    simp only [resolveSkillRef, resolveUrlSkill, fetchWithTimeout, hnet, hok,
      Bool.not_true, Bool.false_eq_true, if_false, HttpResponse.bodyText,
      truthy_append_left (("sha256:").data) (hash content) (by decide), if_true,
      Option.getD_some, hv]

/-- C9 witness: the literal comparison at a concrete network, hash and
content. -/
theorem c9_witness :
    (downloadSkillContent defaultClient (netTextAll (("x").data)) constHash
        (("https://x.example/s").data)
        (some ((("sha256:").data) ++ sampleDigest))).1
      = .error (mkIntegrityError ((("sha256:").data) ++ sampleDigest)
          sampleDigest) := by
  have h := c9_downloadSkillContent_literal defaultClient
    (netTextAll (("x").data)) constHash (("https://x.example/s").data)
    (("x").data) rfl
  exact h.1

set_option maxRecDepth 4000 in
/-- C1 counterexample: content with digest `sampleDigest` and the supplied
descriptor `sha256:<otherDigest>`, whose parsed digest differs from the
computed one. `downloadSkillContent` does throw an Integrity error, but the
expected field it carries is the raw descriptor string, not the parsed
digest the claim requires. -/
theorem c1_counterexample :
    (downloadSkillContent defaultClient (netTextAll (("x").data)) constHash
        (("https://x.example/s").data)
        (some ((("sha256:").data) ++ otherDigest))).1
      = .error (mkIntegrityError ((("sha256:").data) ++ otherDigest)
          sampleDigest)
    ∧ extractHash ((("sha256:").data) ++ otherDigest) = otherDigest
    ∧ constHash (("x").data) ≠ extractHash ((("sha256:").data) ++ otherDigest)
    ∧ (("sha256:").data) ++ otherDigest ≠ otherDigest := by
  refine ⟨by decide, by decide, by decide, by decide⟩

/-- C1 (amended): when the computed digest differs from the parsed
descriptor, resolveSkillRef (every source variant) never returns a result
— any successful resolution has a content whose digest equals the parsed
descriptor — and on a mismatching fetch it throws an Integrity error
carrying expected = parsed digest, actual = computed digest.
downloadSkillContent also never returns a result on such a mismatch, but
it compares the descriptor LITERALLY and its Integrity error carries the
descriptor as supplied (unparsed) in the expected field. -/
theorem c1_fail_closed_amended (c : MpakClient) (net : Net) (hash : Str → Str)
    (D : Str) (hhex : ∀ s, hexStr (hash s) = true) (hD : D ≠ []) :
    (∀ (ref : SkillReference) (res : ResolvedSkill), ref.integrity = some D →
        (resolveSkillRef c net hash ref).1 = .ok res →
        hash res.content = extractHash D)
    ∧ (∀ (nm vr u content : Str), net u = .success 200 (.text content) →
        hash content ≠ extractHash D →
        (resolveSkillRef c net hash (.url nm vr (some D) u)).1
          = .error (mkIntegrityError (extractHash D) (hash content)))
    ∧ (∀ (nm vr repo path content : Str),
        net (githubSkillUrl repo vr path) = .success 200 (.text content) →
        hash content ≠ extractHash D →
        (resolveSkillRef c net hash (.github nm vr (some D) repo path)).1
          = .error (mkIntegrityError (extractHash D) (hash content)))
    ∧ (∀ (nm vr content : Str) (entries : List (Str × Str)),
        net (mpakSkillDownloadUrl c nm vr)
          = .success 200 (.zipArchive entries) →
        extractSkillFromZip (.zipArchive entries) nm = .ok content →
        hash content ≠ extractHash D →
        (resolveSkillRef c net hash (.mpak nm vr (some D))).1
          = .error (mkIntegrityError (extractHash D) (hash content)))
    ∧ (∀ (u content : Str) (res : Str × Bool),
        net u = .success 200 (.text content) →
        hash content ≠ extractHash D →
        (downloadSkillContent c net hash u (some D)).1 ≠ .ok res)
    ∧ (∀ (u content : Str), net u = .success 200 (.text content) →
        hash content ≠ D →
        (downloadSkillContent c net hash u (some D)).1
          = .error (mkIntegrityError D (hash content))) := by
  have htD := truthy_of_ne_nil D hD
  refine ⟨?_, ?_, ?_, ?_, ?_, ?_⟩
  · intro ref res hi hok
    have inv := resolveSkillRef_ok_inv hok
    have ht : truthyStr ref.integrity = true := by rw [hi]; exact htD
    have hd := inv.2.2 ht
    rwa [hi, Option.getD_some] at hd
  · intro nm vr u content hnet hmis
    have hok : (HttpResponse.mk 200 (.text content)).okFlag = true :=
      okFlag_true _ (by omega) (by omega)
    simp only [resolveSkillRef, resolveUrlSkill, fetchWithTimeout, hnet, hok,
      Bool.not_true, Bool.false_eq_true, if_false, HttpResponse.bodyText, htD,
      if_true, Option.getD_some, verify_mismatch hmis]
  · intro nm vr repo path content hnet hmis
    have hok : (HttpResponse.mk 200 (.text content)).okFlag = true :=
      okFlag_true _ (by omega) (by omega)
    simp only [resolveSkillRef, resolveGithubSkill, fetchWithTimeout, hnet, hok,
      Bool.not_true, Bool.false_eq_true, if_false, HttpResponse.bodyText, htD,
      if_true, Option.getD_some, verify_mismatch hmis]
  · intro nm vr content entries hnet hz hmis
    have hok : (HttpResponse.mk 200 (.zipArchive entries)).okFlag = true :=
      okFlag_true _ (by omega) (by omega)
    simp only [resolveSkillRef, resolveMpakSkill, fetchWithTimeout, hnet, hok,
      Bool.not_true, Bool.false_eq_true, if_false, htD, if_true,
      Option.getD_some, hz, verify_mismatch hmis,
      show ((200 : Nat) == 404) = false from rfl]
  · intro u content res hnet hmis
    have hneD : hash content ≠ D := by
      intro hEq
      rcases Bool.eq_false_or_eq_true (strStartsWith D (("sha256:").data))
          with hc | hc
      · have hfalse := hex_startsWith_false (hash content) 's' (("ha256:").data)
          (by decide) (hhex content)
        rw [hEq, show ('s' :: (("ha256:").data)) = (("sha256:").data) from rfl]
          at hfalse
        rw [hfalse] at hc
        exact Bool.noConfusion hc
      · rcases Bool.eq_false_or_eq_true (strStartsWith D (("sha256-").data))
            with hc2 | hc2
        · have hfalse := hex_startsWith_false (hash content) 's' (("ha256-").data)
            (by decide) (hhex content)
          rw [hEq, show ('s' :: (("ha256-").data)) = (("sha256-").data)
            from rfl] at hfalse
          rw [hfalse] at hc2
          exact Bool.noConfusion hc2
        · apply hmis
          rw [hEq]
          unfold extractHash
          rw [if_neg (by simp [hc]), if_neg (by simp [hc2])]
    have hok : (HttpResponse.mk 200 (.text content)).okFlag = true :=
      okFlag_true _ (by omega) (by omega)
    simp only [downloadSkillContent, fetchWithTimeout, hnet, hok, Bool.not_true,
      Bool.false_eq_true, if_false, HttpResponse.bodyText, htD, if_true,
      Option.getD_some]
    rw [if_pos (bne_iff_ne.mpr hneD)]
    simp
  · intro u content hnet hmis
    have hok : (HttpResponse.mk 200 (.text content)).okFlag = true :=
      okFlag_true _ (by omega) (by omega)
    simp only [downloadSkillContent, fetchWithTimeout, hnet, hok, Bool.not_true,
      Bool.false_eq_true, if_false, HttpResponse.bodyText, htD, if_true,
      Option.getD_some]
    rw [if_pos (bne_iff_ne.mpr hmis)]

/-- C1 witness: the amended fail-closed behavior at a concrete client,
network, hash and mismatching descriptor. -/
theorem c1_witness :
    (resolveSkillRef defaultClient (netTextAll (("x").data)) constHash
        (.url (("@a/b").data) (("1.0.0").data) (some otherDigest)
          (("https://x.example/s").data))).1
      = .error (mkIntegrityError (extractHash otherDigest)
          (constHash (("x").data))) := by
  have h := c1_fail_closed_amended defaultClient (netTextAll (("x").data))
    constHash otherDigest (fun _ => (show hexStr sampleDigest = true by decide))
    (by decide)
  exact h.2.1 (("@a/b").data) (("1.0.0").data) (("https://x.example/s").data)
    (("x").data) rfl (by decide)

/-- C2: on every source variant, a matching digest returns the fetched
content unchanged with verified=true; every successful resolution has
verified equal to the truthiness of the supplied descriptor (true iff a
descriptor was supplied, false when none); and with no descriptor the
whole run is independent of the hash function (no hashing is observable)
and verified is false. -/
theorem c2_verification_transparency (c : MpakClient) (net : Net)
    (hash : Str → Str) :
    (∀ (nm vr u content D : Str), net u = .success 200 (.text content) →
        D ≠ [] → hash content = extractHash D →
        (resolveSkillRef c net hash (.url nm vr (some D) u)).1
          = .ok ⟨content, vr, .url, true⟩)
    ∧ (∀ (nm vr repo path content D : Str),
        net (githubSkillUrl repo vr path) = .success 200 (.text content) →
        D ≠ [] → hash content = extractHash D →
        (resolveSkillRef c net hash (.github nm vr (some D) repo path)).1
          = .ok ⟨content, vr, .github, true⟩)
    ∧ (∀ (nm vr content D : Str) (entries : List (Str × Str)),
        net (mpakSkillDownloadUrl c nm vr)
          = .success 200 (.zipArchive entries) →
        extractSkillFromZip (.zipArchive entries) nm = .ok content →
        D ≠ [] → hash content = extractHash D →
        (resolveSkillRef c net hash (.mpak nm vr (some D))).1
          = .ok ⟨content, vr, .mpak, true⟩)
    ∧ (∀ (ref : SkillReference) (res : ResolvedSkill),
        (resolveSkillRef c net hash ref).1 = .ok res →
        res.verified = truthyStr ref.integrity)
    ∧ (∀ (ref : SkillReference) (res : ResolvedSkill), ref.integrity = none →
        (resolveSkillRef c net hash ref).1 = .ok res → res.verified = false)
    ∧ (∀ (ref : SkillReference) (hash2 : Str → Str), ref.integrity = none →
        resolveSkillRef c net hash ref = resolveSkillRef c net hash2 ref) := by
  refine ⟨?_, ?_, ?_, ?_, ?_, ?_⟩
  · intro nm vr u content D hnet hD hmatch
    have hok : (HttpResponse.mk 200 (.text content)).okFlag = true :=
      okFlag_true _ (by omega) (by omega)
    simp only [resolveSkillRef, resolveUrlSkill, fetchWithTimeout, hnet, hok,
      Bool.not_true, Bool.false_eq_true, if_false, HttpResponse.bodyText,
      truthy_of_ne_nil D hD, if_true, Option.getD_some, verify_match hmatch]
  · intro nm vr repo path content D hnet hD hmatch
    have hok : (HttpResponse.mk 200 (.text content)).okFlag = true :=
      okFlag_true _ (by omega) (by omega)
    simp only [resolveSkillRef, resolveGithubSkill, fetchWithTimeout, hnet, hok,
      Bool.not_true, Bool.false_eq_true, if_false, HttpResponse.bodyText,
      truthy_of_ne_nil D hD, if_true, Option.getD_some, verify_match hmatch]
  · intro nm vr content D entries hnet hz hD hmatch
    have hok : (HttpResponse.mk 200 (.zipArchive entries)).okFlag = true :=
      okFlag_true _ (by omega) (by omega)
    simp only [resolveSkillRef, resolveMpakSkill, fetchWithTimeout, hnet, hok,
      Bool.not_true, Bool.false_eq_true, if_false, truthy_of_ne_nil D hD,
      if_true, Option.getD_some, hz, verify_match hmatch,
      show ((200 : Nat) == 404) = false from rfl]
  · intro ref res h
    exact (resolveSkillRef_ok_inv h).2.1
  · intro ref res hi h
    have := (resolveSkillRef_ok_inv h).2.1
    rwa [hi] at this
  · intro ref hash2 hi
    cases ref with
    | mpak nm vr i =>
      simp only [SkillReference.integrity] at hi
      subst hi
      simp only [resolveSkillRef, resolveMpakSkill, truthyStr,
        Bool.false_eq_true, if_false]
    | github nm vr i repo path =>
      simp only [SkillReference.integrity] at hi
      subst hi
      simp only [resolveSkillRef, resolveGithubSkill, truthyStr,
        Bool.false_eq_true, if_false]
    | url nm vr i u =>
      simp only [SkillReference.integrity] at hi
      subst hi
      simp only [resolveSkillRef, resolveUrlSkill, truthyStr,
        Bool.false_eq_true, if_false]

/-- C2 witness: a matching descriptor on a concrete run returns the body
unchanged with verified=true. -/
theorem c2_witness :
    (resolveSkillRef defaultClient (netTextAll (("x").data)) constHash
        (.url (("@a/b").data) (("1.0.0").data) (some sampleDigest)
          (("https://x.example/s").data))).1
      = .ok ⟨("x").data, ("1.0.0").data, .url, true⟩ := by
  have h := c2_verification_transparency defaultClient (netTextAll (("x").data))
    constHash
  exact h.1 (("@a/b").data) (("1.0.0").data) (("https://x.example/s").data)
    (("x").data) sampleDigest rfl (by decide) (by decide)

/-- C7: resolveSkillRef routes exclusively by the source tag: a registry
reference requests exactly the registry download URL, a github reference
exactly the release-asset URL, a url reference exactly the given URL (one
request each, so no variant ever touches the endpoints of another); and
every successful result carries the source tag of the input reference. -/
theorem c7_source_dispatch (c : MpakClient) (net : Net) (hash : Str → Str) :
    (∀ (nm vr : Str) (i : Option Str),
        (resolveSkillRef c net hash (.mpak nm vr i)).2
          = [mpakSkillDownloadUrl c nm vr])
    ∧ (∀ (nm vr : Str) (i : Option Str) (repo path : Str),
        (resolveSkillRef c net hash (.github nm vr i repo path)).2
          = [githubSkillUrl repo vr path])
    ∧ (∀ (nm vr : Str) (i : Option Str) (u : Str),
        (resolveSkillRef c net hash (.url nm vr i u)).2 = [u])
    ∧ (∀ (ref : SkillReference) (res : ResolvedSkill),
        (resolveSkillRef c net hash ref).1 = .ok res →
        res.source = ref.sourceTag) := by
  refine ⟨?_, ?_, ?_, ?_⟩
  · intro nm vr i
    exact resolveMpakSkill_reqs c net hash nm vr i
  · intro nm vr i repo path
    exact resolveGithubSkill_reqs c net hash vr i repo path
  · intro nm vr i u
    exact resolveUrlSkill_reqs c net hash vr i u
  · intro ref res h
    exact (resolveSkillRef_ok_inv h).1

/-- C7 witness: the routing at a concrete github reference: one request, to
the release-asset URL, and the result keeps the github tag. -/
theorem c7_witness :
    (resolveSkillRef defaultClient (netTextAll (("body").data)) constHash
        (.github (("@e/s").data) (("v1.0.0").data) none
          (("owner/repo").data) (("skill.md").data))).2
      = [("https://github.com/owner/repo/releases/download/v1.0.0/skill.md").data]
    ∧ (resolveSkillRef defaultClient (netTextAll (("body").data)) constHash
        (.github (("@e/s").data) (("v1.0.0").data) none
          (("owner/repo").data) (("skill.md").data))).1
      = .ok ⟨("body").data, ("v1.0.0").data, .github, false⟩ := by
  have h := c7_source_dispatch defaultClient (netTextAll (("body").data))
    constHash
  refine ⟨?_, by decide⟩
  have h2 := h.2.1 (("@e/s").data) (("v1.0.0").data) none (("owner/repo").data)
    (("skill.md").data)
  rw [h2]
  decide

/-- C5 counterexample: resolving a registry reference with the unscoped
name `invalid-name` does not fail validation: it issues the download
request (one network call recorded) and even succeeds. -/
theorem c5_counterexample :
    resolveSkillRef defaultClient
        (netZipAll [((("invalid-name/SKILL.md").data), (("skill body").data))])
        constHash (.mpak (("invalid-name").data) (("1.0.0").data) none)
      = (.ok ⟨("skill body").data, ("1.0.0").data, .mpak, false⟩,
         [("https://api.mpak.dev/v1/skills/invalid-name/versions/1.0.0/download").data])
    ∧ strStartsWith (("invalid-name").data) (("@").data) = false := by
  refine ⟨by decide, by decide⟩

/-- C5 (amended): the seven named catalog operations reject a name without
the scope marker via the local validation error before issuing any request
(zero URLs recorded); registry reference resolution, however, performs no
scoped-name validation and issues its download request regardless of the
shape of the name. -/
theorem c5_scoped_name_precondition (c : MpakClient) (net : Net)
    (hash : Str → Str) (name version : Str) (platform : Option Platform)
    (i : Option Str) (hname : strStartsWith name (("@").data) = false) :
    getBundle c net name = (.error (mkPlainError scopedNameErrorMsg), [])
    ∧ getBundleVersions c net name
        = (.error (mkPlainError scopedNameErrorMsg), [])
    ∧ getBundleVersion c net name version
        = (.error (mkPlainError scopedNameErrorMsg), [])
    ∧ getBundleDownload c net name version platform
        = (.error (mkPlainError scopedNameErrorMsg), [])
    ∧ getSkill c net name = (.error (mkPlainError scopedNameErrorMsg), [])
    ∧ getSkillDownload c net name
        = (.error (mkPlainError scopedNameErrorMsg), [])
    ∧ getSkillVersionDownload c net name version
        = (.error (mkPlainError scopedNameErrorMsg), [])
    ∧ (resolveSkillRef c net hash (.mpak name version i)).2
        = [mpakSkillDownloadUrl c name version] := by
  have hv := validate_err hname
  refine ⟨?_, ?_, ?_, ?_, ?_, ?_, ?_,
    resolveMpakSkill_reqs c net hash name version i⟩
  · simp only [getBundle, hv]
  · simp only [getBundleVersions, hv]
  · simp only [getBundleVersion, hv]
  · simp only [getBundleDownload, hv]
  · simp only [getSkill, hv]
  · simp only [getSkillDownload, hv]
  · simp only [getSkillVersionDownload, hv]

/-- C5 witness: the validation error with zero requests at a concrete
unscoped name, next to the registry resolution that does fetch. -/
theorem c5_witness :
    getBundle defaultClient net404All (("invalid-name").data)
      = (.error (mkPlainError scopedNameErrorMsg), [])
    ∧ (resolveSkillRef defaultClient net404All constHash
        (.mpak (("invalid-name").data) (("1.0.0").data) none)).2
      = [mpakSkillDownloadUrl defaultClient (("invalid-name").data)
          (("1.0.0").data)] := by
  have h := c5_scoped_name_precondition defaultClient net404All constHash
    (("invalid-name").data) (("1.0.0").data) none none (by decide)
  exact ⟨h.1, h.2.2.2.2.2.2.2⟩

lemma getBundle_error_isMpak {c : MpakClient} {net : Net} {name : Str}
    {e : SdkError} (hname : strStartsWith name (("@").data) = true)
    (h : (getBundle c net name).1 = .error e) :
    e.isMpakError = true ∧ e.code ≠ none := by
  simp only [getBundle, validate_ok hname] at h
  cases hnu : net (c.registryUrl ++ ("/v1/bundles/").data ++ name) with
  | timeout =>
    simp only [fetchWithTimeout, hnu, Except.error.injEq] at h
    subst h
    exact ⟨rfl, by simp [mkNetworkError]⟩
  | failure m =>
    simp only [fetchWithTimeout, hnu, Except.error.injEq] at h
    subst h
    exact ⟨rfl, by simp [mkNetworkError]⟩
  | success st p =>
    simp only [fetchWithTimeout, hnu] at h
    rcases Bool.eq_false_or_eq_true ((HttpResponse.mk st p).status == 404)
        with h404 | h404
    · simp only [h404, if_true, Except.error.injEq] at h
      subst h
      exact ⟨rfl, by simp [mkNotFoundError]⟩
    · simp only [h404, Bool.false_eq_true, if_false] at h
      rcases Bool.eq_false_or_eq_true ((HttpResponse.mk st p).okFlag)
          with hok | hok
      · simp only [hok, Bool.not_true, Bool.false_eq_true, if_false] at h
        exact absurd h (by simp)
      · simp only [hok, Bool.not_false, if_true, Except.error.injEq] at h
        subst h
        exact ⟨rfl, by simp [mkNetworkError]⟩

/-- C8 counterexample: the failure `getBundle` raises for the unscoped
name `invalid-name` is a plain `Error`: it is not an instance of the
`MpakError` base type and carries no machine-readable kind code, so it
cannot be caught uniformly via the base SDK error type. -/
theorem c8_counterexample :
    (getBundle defaultClient net404All (("invalid-name").data)).1
      = .error (mkPlainError scopedNameErrorMsg)
    ∧ (mkPlainError scopedNameErrorMsg).isMpakError = false
    ∧ (mkPlainError scopedNameErrorMsg).code = none := by
  refine ⟨by decide, rfl, rfl⟩

/-- C8 (amended): the Not-Found, Integrity-Mismatch and Network errors all
carry a machine-readable kind code and a human message and are instances
of the `MpakError` base type (so those SDK failures are uniformly
catchable); the unscoped-name validation failure, however, is a plain
`Error` with a message only — not an `MpakError` and without a code. -/
theorem c8_error_taxonomy_amended :
    (∀ r : Str, (mkNotFoundError r).isMpakError = true
        ∧ (mkNotFoundError r).code = some (("NOT_FOUND").data)
        ∧ (mkNotFoundError r).message = ("Resource not found: ").data ++ r)
    ∧ (∀ e a : Str, (mkIntegrityError e a).isMpakError = true
        ∧ (mkIntegrityError e a).code = some (("INTEGRITY_MISMATCH").data)
        ∧ (mkIntegrityError e a).expected = some e
        ∧ (mkIntegrityError e a).actual = some a)
    ∧ (∀ m : Str, (mkNetworkError m).isMpakError = true
        ∧ (mkNetworkError m).code = some (("NETWORK_ERROR").data)
        ∧ (mkNetworkError m).message = m)
    ∧ (∀ m : Str, (mkPlainError m).isMpakError = false
        ∧ (mkPlainError m).code = none)
    ∧ (∀ (c : MpakClient) (net : Net) (name : Str) (e : SdkError),
        strStartsWith name (("@").data) = true →
        (getBundle c net name).1 = .error e →
        e.isMpakError = true ∧ e.code ≠ none)
    ∧ (∀ (c : MpakClient) (net : Net) (name : Str),
        strStartsWith name (("@").data) = false →
        (getBundle c net name).1 = .error (mkPlainError scopedNameErrorMsg)) := by
  refine ⟨fun r => ⟨rfl, rfl, rfl⟩, fun e a => ⟨rfl, rfl, rfl, rfl⟩,
    fun m => ⟨rfl, rfl, rfl⟩, fun m => ⟨rfl, rfl⟩, ?_, ?_⟩
  · intro c net name e hname h
    exact getBundle_error_isMpak hname h
  · intro c net name hname
    simp only [getBundle, validate_err hname]

/-- C8 witness: the taxonomy facts applied at a concrete 404 run. -/
theorem c8_witness :
    (mkNotFoundError (("@a/b").data)).isMpakError = true
    ∧ ((getBundle defaultClient net404All (("@a/b").data)).1
        = .error (mkNotFoundError (("@a/b").data)) →
      (mkNotFoundError (("@a/b").data)).code ≠ none) := by
  have h := c8_error_taxonomy_amended
  refine ⟨(h.1 (("@a/b").data)).1, ?_⟩
  intro hrun
  exact (h.2.2.2.2.1 defaultClient net404All (("@a/b").data) _ (by decide)
    hrun).2

/-- C6: on every one of the seven named-resource catalog operations, a 404
response yields the Not-Found error carrying the exact name (or
name@version) requested; any other non-2xx status yields a Network error
whose message carries the status; and a request aborted by the configured
timeout yields a Network error whose message contains the configured
duration followed by `ms`. -/
theorem c6_status_mapping (c : MpakClient) (net404 netSt netTO : Net)
    (st : Nat) (name version : Str) (platform : Option Platform)
    (hname : strStartsWith name (("@").data) = true)
    (h404 : ∀ u, net404 u = .success 404 (.text []))
    (hSt : ∀ u, netSt u = .success st (.text []))
    (hstNe : st ≠ 404) (hstBad : ¬(200 ≤ st ∧ st ≤ 299))
    (hTO : ∀ u, netTO u = .timeout) :
    (getBundle c net404 name).1 = .error (mkNotFoundError name)
    ∧ (getBundleVersions c net404 name).1 = .error (mkNotFoundError name)
    ∧ (getBundleVersion c net404 name version).1
        = .error (mkNotFoundError (name ++ ("@").data ++ version))
    ∧ (getBundleDownload c net404 name version platform).1
        = .error (mkNotFoundError (name ++ ("@").data ++ version))
    ∧ (getSkill c net404 name).1 = .error (mkNotFoundError name)
    ∧ (getSkillDownload c net404 name).1 = .error (mkNotFoundError name)
    ∧ (getSkillVersionDownload c net404 name version).1
        = .error (mkNotFoundError (name ++ ("@").data ++ version))
    ∧ (getBundle c netSt name).1
        = .error (mkNetworkError (("Failed to get bundle: HTTP ").data
            ++ natStr st))
    ∧ (getBundleVersions c netSt name).1
        = .error (mkNetworkError (("Failed to get bundle versions: HTTP ").data
            ++ natStr st))
    ∧ (getBundleVersion c netSt name version).1
        = .error (mkNetworkError (("Failed to get bundle version: HTTP ").data
            ++ natStr st))
    ∧ (getBundleDownload c netSt name version platform).1
        = .error (mkNetworkError (("Failed to get bundle download: HTTP ").data
            ++ natStr st))
    ∧ (getSkill c netSt name).1
        = .error (mkNetworkError (("Failed to get skill: HTTP ").data
            ++ natStr st))
    ∧ (getSkillDownload c netSt name).1
        = .error (mkNetworkError (("Failed to get skill download: HTTP ").data
            ++ natStr st))
    ∧ (getSkillVersionDownload c netSt name version).1
        = .error (mkNetworkError (("Failed to get skill download: HTTP ").data
            ++ natStr st))
    ∧ natStr st <:+: (("Failed to get bundle: HTTP ").data ++ natStr st)
    ∧ (getBundle c netTO name).1
        = .error (mkNetworkError (("Request timeout after ").data
            ++ natStr c.timeout ++ ("ms").data))
    ∧ (getBundleVersions c netTO name).1
        = .error (mkNetworkError (("Request timeout after ").data
            ++ natStr c.timeout ++ ("ms").data))
    ∧ (getBundleVersion c netTO name version).1
        = .error (mkNetworkError (("Request timeout after ").data
            ++ natStr c.timeout ++ ("ms").data))
    ∧ (getBundleDownload c netTO name version platform).1
        = .error (mkNetworkError (("Request timeout after ").data
            ++ natStr c.timeout ++ ("ms").data))
    ∧ (getSkill c netTO name).1
        = .error (mkNetworkError (("Request timeout after ").data
            ++ natStr c.timeout ++ ("ms").data))
    ∧ (getSkillDownload c netTO name).1
        = .error (mkNetworkError (("Request timeout after ").data
            ++ natStr c.timeout ++ ("ms").data))
    ∧ (getSkillVersionDownload c netTO name version).1
        = .error (mkNetworkError (("Request timeout after ").data
            ++ natStr c.timeout ++ ("ms").data))
    ∧ (natStr c.timeout ++ ("ms").data) <:+:
        (("Request timeout after ").data ++ natStr c.timeout ++ ("ms").data) := by
  have hbeq : (st == 404) = false := beq_404_false hstNe
  have hokf : ∀ p : Payload, (HttpResponse.mk st p).okFlag = false :=
    fun p => okFlag_false p hstBad
  refine ⟨?_, ?_, ?_, ?_, ?_, ?_, ?_, ?_, ?_, ?_, ?_, ?_, ?_, ?_,
    ⟨("Failed to get bundle: HTTP ").data, [], by simp⟩,
    ?_, ?_, ?_, ?_, ?_, ?_, ?_,
    ⟨("Request timeout after ").data, [], by simp⟩⟩ <;>
  simp only [getBundle, getBundleVersions, getBundleVersion, getBundleDownload,
    getSkill, getSkillDownload, getSkillVersionDownload, validate_ok hname,
    fetchWithTimeout, h404, hSt, hTO, hbeq, hokf,
    show ((404 : Nat) == 404) = true from rfl, if_true, Bool.false_eq_true,
    if_false, Bool.not_false]

/-- C6 witness: the mapping at concrete runs — 404 carries the name, 500
carries the status, a 5000 ms timeout produces a message containing
`5000ms`. -/
theorem c6_witness :
    (getBundleVersion defaultClient net404All (("@a/b").data)
        (("1.0.0").data)).1
      = .error (mkNotFoundError (("@a/b@1.0.0").data))
    ∧ (getBundle defaultClient net500All (("@a/b").data)).1
        = .error (mkNetworkError (("Failed to get bundle: HTTP 500").data))
    ∧ (getBundle (MpakClient.ofConfig { timeout := some 5000 }) netTimeoutAll
        (("@a/b").data)).1
        = .error (mkNetworkError (("Request timeout after 5000ms").data)) := by
  have h := c6_status_mapping defaultClient net404All net500All netTimeoutAll
    500 (("@a/b").data) (("1.0.0").data) none (by decide) (fun _ => rfl)
    (fun _ => rfl) (by decide) (by omega) (fun _ => rfl)
  have h2 := c6_status_mapping (MpakClient.ofConfig { timeout := some 5000 })
    net404All net500All netTimeoutAll 500 (("@a/b").data) (("1.0.0").data)
    none (by decide) (fun _ => rfl) (fun _ => rfl) (by decide) (by omega)
    (fun _ => rfl)
  refine ⟨?_, ?_, ?_⟩
  · have := h.2.2.1
    rwa [show (("@a/b").data ++ ("@").data ++ (("1.0.0").data))
      = ("@a/b@1.0.0").data from rfl] at this
  · have := h.2.2.2.2.2.2.2.1
    rwa [show ((("Failed to get bundle: HTTP ").data ++ natStr 500)
      = ("Failed to get bundle: HTTP 500").data) from by decide] at this
  · have := h2.2.2.2.2.2.2.2.2.2.2.2.2.2.2.2.1
    rwa [show ((("Request timeout after ").data
        ++ natStr (MpakClient.ofConfig { timeout := some 5000 }).timeout
        ++ ("ms").data) = ("Request timeout after 5000ms").data)
      from by decide] at this

/-- C4 counterexample: a registry resolution whose download endpoint
responds successfully with a direct text payload does NOT treat it as the
content: the payload is unconditionally handed to the archive extractor,
which fails, so no result carrying that text is produced. -/
theorem c4_counterexample :
    (resolveSkillRef defaultClient (netTextAll (("direct text payload").data))
        constHash (.mpak (("@scope/skill").data) (("1.0.0").data) none)).1
      = .error (mkPlainError zipParseErrorMsg)
    ∧ (resolveSkillRef defaultClient (netTextAll (("direct text payload").data))
        constHash (.mpak (("@scope/skill").data) (("1.0.0").data) none)).1
      ≠ .ok ⟨("direct text payload").data, ("1.0.0").data, .mpak, false⟩ := by
  refine ⟨by decide, by decide⟩

/-- C4 (amended): on a successful registry download, the payload is always
treated as an archive: its `<basename(name)>/SKILL.md` entry is extracted
first, with fallback to a bare top-level `SKILL.md`, and if neither entry
exists the call fails with a Not-Found error naming the missing entry; a
direct text payload is not treated as content — it is passed to the
archive extractor, whose failure propagates instead of a result. -/
theorem c4_mpak_archive_extraction (c : MpakClient) (net : Net)
    (hash : Str → Str) (nm vr : Str) (st : Nat) (hst1 : 200 ≤ st)
    (hst2 : st ≤ 299) :
    (∀ (entries : List (Str × Str)) (content : Str),
        net (mpakSkillDownloadUrl c nm vr)
          = .success st (.zipArchive entries) →
        entries.lookup (((splitSlash nm).getLastD nm) ++ ("/SKILL.md").data)
          = some content →
        (resolveSkillRef c net hash (.mpak nm vr none)).1
          = .ok ⟨content, vr, .mpak, false⟩)
    ∧ (∀ (entries : List (Str × Str)) (content : Str),
        net (mpakSkillDownloadUrl c nm vr)
          = .success st (.zipArchive entries) →
        entries.lookup (((splitSlash nm).getLastD nm) ++ ("/SKILL.md").data)
          = none →
        entries.lookup (("SKILL.md").data) = some content →
        (resolveSkillRef c net hash (.mpak nm vr none)).1
          = .ok ⟨content, vr, .mpak, false⟩)
    ∧ (∀ entries : List (Str × Str),
        net (mpakSkillDownloadUrl c nm vr)
          = .success st (.zipArchive entries) →
        entries.lookup (((splitSlash nm).getLastD nm) ++ ("/SKILL.md").data)
          = none →
        entries.lookup (("SKILL.md").data) = none →
        (resolveSkillRef c net hash (.mpak nm vr none)).1
          = .error (mkNotFoundError
              (("SKILL.md not found in bundle for ").data ++ nm)))
    ∧ (∀ body : Str,
        net (mpakSkillDownloadUrl c nm vr) = .success st (.text body) →
        (resolveSkillRef c net hash (.mpak nm vr none)).1
          = .error (mkPlainError zipParseErrorMsg)) := by
  have hbeq : (st == 404) = false := beq_404_false (by omega)
  refine ⟨?_, ?_, ?_, ?_⟩
  · intro entries content hnet hlk
    have hok : (HttpResponse.mk st (.zipArchive entries)).okFlag = true :=
      okFlag_true _ hst1 hst2
    simp only [resolveSkillRef, resolveMpakSkill, fetchWithTimeout, hnet, hok,
      hbeq, Bool.false_eq_true, if_false, Bool.not_true, extractSkillFromZip,
      jszipLoad, hlk, truthyStr]
  · intro entries content hnet hlk1 hlk2
    have hok : (HttpResponse.mk st (.zipArchive entries)).okFlag = true :=
      okFlag_true _ hst1 hst2
    simp only [resolveSkillRef, resolveMpakSkill, fetchWithTimeout, hnet, hok,
      hbeq, Bool.false_eq_true, if_false, Bool.not_true, extractSkillFromZip,
      jszipLoad, hlk1, hlk2, truthyStr]
  · intro entries hnet hlk1 hlk2
    have hok : (HttpResponse.mk st (.zipArchive entries)).okFlag = true :=
      okFlag_true _ hst1 hst2
    simp only [resolveSkillRef, resolveMpakSkill, fetchWithTimeout, hnet, hok,
      hbeq, Bool.false_eq_true, if_false, Bool.not_true, extractSkillFromZip,
      jszipLoad, hlk1, hlk2, truthyStr]
  · intro body hnet
    have hok : (HttpResponse.mk st (.text body)).okFlag = true :=
      okFlag_true _ hst1 hst2
    simp only [resolveSkillRef, resolveMpakSkill, fetchWithTimeout, hnet, hok,
      hbeq, Bool.false_eq_true, if_false, Bool.not_true, extractSkillFromZip,
      jszipLoad, truthyStr]

/-- C4 witness: extraction of the canonical entry, the bare fallback and
the missing-entry failure on concrete archives. -/
theorem c4_witness :
    (resolveSkillRef defaultClient
        (netZipAll [((("skill/SKILL.md").data), (("the content").data))])
        constHash (.mpak (("@scope/skill").data) (("1.0.0").data) none)).1
      = .ok ⟨("the content").data, ("1.0.0").data, .mpak, false⟩
    ∧ (resolveSkillRef defaultClient
        (netZipAll [((("SKILL.md").data), (("bare content").data))])
        constHash (.mpak (("@scope/skill").data) (("1.0.0").data) none)).1
      = .ok ⟨("bare content").data, ("1.0.0").data, .mpak, false⟩
    ∧ (resolveSkillRef defaultClient (netZipAll []) constHash
        (.mpak (("@scope/skill").data) (("1.0.0").data) none)).1
      = .error (mkNotFoundError
          (("SKILL.md not found in bundle for @scope/skill").data)) := by
  have h := c4_mpak_archive_extraction defaultClient
    (netZipAll [((("skill/SKILL.md").data), (("the content").data))])
    constHash (("@scope/skill").data) (("1.0.0").data) 200 (by omega)
    (by omega)
  have h2 := c4_mpak_archive_extraction defaultClient
    (netZipAll [((("SKILL.md").data), (("bare content").data))])
    constHash (("@scope/skill").data) (("1.0.0").data) 200 (by omega)
    (by omega)
  have h3 := c4_mpak_archive_extraction defaultClient (netZipAll []) constHash
    (("@scope/skill").data) (("1.0.0").data) 200 (by omega) (by omega)
  refine ⟨h.1 _ _ rfl (by decide), h2.2.1 _ _ rfl (by decide) (by decide), ?_⟩
  have h4 := h3.2.2.1 [] rfl (by decide) (by decide)
  rwa [show ((("SKILL.md not found in bundle for ").data
      ++ (("@scope/skill").data))
    = ("SKILL.md not found in bundle for @scope/skill").data) from rfl] at h4

lemma serializeParams_cons_isEmpty (kv : Str × Str) (rest : List (Str × Str)) :
    (serializeParams (kv :: rest)).isEmpty = false := by
  cases rest <;> simp [serializeParams, List.intercalate, List.intersperse]

lemma mem_fst_ite_block (k k2 v : Str) (b : Bool) :
    (k ∈ ((if b = true then [(k2, v)] else []).map Prod.fst))
      ↔ (b = true ∧ k = k2) := by
  cases b <;> simp

/-- C10: each search issues exactly one request to its built URL; the
query pairs contain a key iff the caller supplied that parameter with a
truthy value; with no parameters the URL is exactly the base plus the
search path — with the default registry URL it contains no `?` at all —
and a nonempty pair list is appended after a single `?`. -/
theorem c10_query_omission (c : MpakClient) (net : Net)
    (pb : BundleSearchParams) (ps : SkillSearchParams) :
    (searchBundles c net pb).2 = [searchBundlesUrl c pb]
    ∧ (searchSkills c net ps).2 = [searchSkillsUrl c ps]
    ∧ ((("q").data) ∈ (searchBundlesPairs pb).map Prod.fst
        ↔ truthyStr pb.q = true)
    ∧ ((("type").data) ∈ (searchBundlesPairs pb).map Prod.fst
        ↔ truthyStr pb.bundleType = true)
    ∧ ((("sort").data) ∈ (searchBundlesPairs pb).map Prod.fst
        ↔ truthyStr pb.sortBy = true)
    ∧ ((("limit").data) ∈ (searchBundlesPairs pb).map Prod.fst
        ↔ truthyNat pb.limit = true)
    ∧ ((("offset").data) ∈ (searchBundlesPairs pb).map Prod.fst
        ↔ truthyNat pb.offset = true)
    ∧ ((("q").data) ∈ (searchSkillsPairs ps).map Prod.fst
        ↔ truthyStr ps.q = true)
    ∧ ((("tags").data) ∈ (searchSkillsPairs ps).map Prod.fst
        ↔ truthyStr ps.tags = true)
    ∧ ((("category").data) ∈ (searchSkillsPairs ps).map Prod.fst
        ↔ truthyStr ps.category = true)
    ∧ ((("surface").data) ∈ (searchSkillsPairs ps).map Prod.fst
        ↔ truthyStr ps.surface = true)
    ∧ ((("sort").data) ∈ (searchSkillsPairs ps).map Prod.fst
        ↔ truthyStr ps.sortBy = true)
    ∧ ((("limit").data) ∈ (searchSkillsPairs ps).map Prod.fst
        ↔ truthyNat ps.limit = true)
    ∧ ((("offset").data) ∈ (searchSkillsPairs ps).map Prod.fst
        ↔ truthyNat ps.offset = true)
    ∧ searchBundlesUrl c {} = c.registryUrl ++ ("/v1/bundles/search").data
    ∧ searchSkillsUrl c {} = c.registryUrl ++ ("/v1/skills/search").data
    ∧ ('?' ∉ searchBundlesUrl defaultClient {})
    ∧ ('?' ∉ searchSkillsUrl defaultClient {})
    ∧ (searchBundlesPairs pb ≠ [] → searchBundlesUrl c pb
        = c.registryUrl ++ ("/v1/bundles/search").data
          ++ '?' :: serializeParams (searchBundlesPairs pb))
    ∧ (searchSkillsPairs ps ≠ [] → searchSkillsUrl c ps
        = c.registryUrl ++ ("/v1/skills/search").data
          ++ '?' :: serializeParams (searchSkillsPairs ps)) := by
  refine ⟨fetch_reqs c net (searchBundlesUrl c pb),
    fetch_reqs c net (searchSkillsUrl c ps),
    ?_, ?_, ?_, ?_, ?_, ?_, ?_, ?_, ?_, ?_, ?_, ?_, ?_, ?_, by decide,
    by decide, ?_, ?_⟩
  · simp only [searchBundlesPairs, List.map_append, List.mem_append,
      mem_fst_ite_block]
    simp
  · simp only [searchBundlesPairs, List.map_append, List.mem_append,
      mem_fst_ite_block]
    simp
  · simp only [searchBundlesPairs, List.map_append, List.mem_append,
      mem_fst_ite_block]
    simp
  · simp only [searchBundlesPairs, List.map_append, List.mem_append,
      mem_fst_ite_block]
    simp
  · simp only [searchBundlesPairs, List.map_append, List.mem_append,
      mem_fst_ite_block]
    simp
  · simp only [searchSkillsPairs, List.map_append, List.mem_append,
      mem_fst_ite_block]
    simp
  · simp only [searchSkillsPairs, List.map_append, List.mem_append,
      mem_fst_ite_block]
    simp
  · simp only [searchSkillsPairs, List.map_append, List.mem_append,
      mem_fst_ite_block]
    simp
  · simp only [searchSkillsPairs, List.map_append, List.mem_append,
      mem_fst_ite_block]
    simp
  · simp only [searchSkillsPairs, List.map_append, List.mem_append,
      mem_fst_ite_block]
    simp
  · simp only [searchSkillsPairs, List.map_append, List.mem_append,
      mem_fst_ite_block]
    simp
  · simp only [searchSkillsPairs, List.map_append, List.mem_append,
      mem_fst_ite_block]
    simp
  · simp [searchBundlesUrl, searchBundlesPairs, truthyStr, truthyNat,
      show serializeParams [] = [] from rfl]
  · simp [searchSkillsUrl, searchSkillsPairs, truthyStr, truthyNat,
      show serializeParams [] = [] from rfl]
  · intro hne
    rcases hp : searchBundlesPairs pb with _ | ⟨kv, rest⟩
    · exact absurd hp hne
    · simp only [searchBundlesUrl, hp, serializeParams_cons_isEmpty,
        Bool.false_eq_true, if_false]
  · intro hne
    rcases hp : searchSkillsPairs ps with _ | ⟨kv, rest⟩
    · exact absurd hp hne
    · simp only [searchSkillsUrl, hp, serializeParams_cons_isEmpty,
        Bool.false_eq_true, if_false]

/-- C10 witness: a search carrying only `q` requests its URL with exactly
that key, and a parameterless search URL carries no question mark. -/
theorem c10_witness :
    (searchBundles defaultClient net404All
        { q := some (("mcp").data) }).2
      = [searchBundlesUrl defaultClient { q := some (("mcp").data) }]
    ∧ (("q").data) ∈ (searchBundlesPairs
        { q := some (("mcp").data) }).map Prod.fst
    ∧ ('?' ∉ searchBundlesUrl defaultClient {}) := by
  have h := c10_query_omission defaultClient net404All
    { q := some (("mcp").data) } {}
  exact ⟨h.1, (h.2.2.1).mpr (by decide), by decide⟩

end Mpak
